import Mathlib

/-!
Verification of the `gen-ts-types` subsystem (Go-to-TypeScript type generator)
of the gogen repository, shallowly embedded from
`internal/gen-ts-types/types.go` and `internal/gen-ts-types/generator.go`.

Go AST type expressions are embedded as the inductive `GoExpr`; struct fields
as `GoField`.  Struct tags are embedded as association lists of key/value
pairs: the repository reads them through `reflect.StructTag.Get`, which
returns the value of the first matching key (empty string when absent), and
`tagGet` below models exactly that interface.  Machine integers do not occur
in this subsystem; everything is strings and lists.

The recursion in the source goes through the package type registry
(`expandEmbeddedField` re-enters `collectStructFields` on a struct looked up
by name), which the source performs with no cycle guard.  The embedding
therefore carries an explicit fuel parameter standing for the call stack:
every mutual call consumes one unit, and exhausted fuel returns the zero
value of the corresponding Go function.  Theorems quantify over `fuel + 1`
so that one source-level call frame is always available.
-/

-- Model of Go strings.Contains: substring search on the character list.
def hasSubList (sub : List Char) : List Char → Bool
  | [] => sub.isEmpty
  | c :: rest => sub.isPrefixOf (c :: rest) || hasSubList sub rest

def goContains (s sub : String) : Bool :=
  hasSubList sub.data s.data

-- Go unicode.IsSpace restricted to the ASCII white-space characters; every
-- white-space character occurring in this subsystem is ASCII.
def goIsSpace (c : Char) : Bool :=
  c = ' ' || c = '\t' || c = '\n' || c = '\x0b' || c = '\x0c' || c = '\r'

-- Model of Go strings.TrimSpace.
def goTrimSpace (s : String) : String :=
  String.mk (((s.data.dropWhile goIsSpace).reverse.dropWhile goIsSpace).reverse)

-- Model of Go strings.HasPrefix.
def goStartsWith (s pre : String) : Bool :=
  pre.data.isPrefixOf s.data

-- Model of Go strings.HasSuffix.
def goEndsWith (s suf : String) : Bool :=
  suf.data.isSuffixOf s.data

-- Model of Go strings.TrimPrefix.
def goDropPre (s pre : String) : String :=
  if goStartsWith s pre then String.mk (s.data.drop pre.data.length) else s

-- Model of Go strings.Split for a nonempty separator: scan left to right,
-- cutting at each non-overlapping occurrence.  The Nat argument bounds the
-- recursion by the input length, which every step strictly decreases.
def splitOnAux (sep : List Char) : Nat → List Char → List Char → List (List Char)
  | 0, l, acc => [acc.reverse ++ l]
  | _+1, [], acc => [acc.reverse]
  | fuel+1, c :: rest, acc =>
    if sep ≠ [] ∧ sep.isPrefixOf (c :: rest) then
      acc.reverse :: splitOnAux sep fuel ((c :: rest).drop sep.length) []
    else
      splitOnAux sep fuel rest (c :: acc)

def goSplitOn (s sep : String) : List String :=
  (splitOnAux sep.data s.data.length s.data []).map String.mk

-- Model of Go strings.ToLower (ASCII case folding suffices here).
def goToLower (s : String) : String :=
  String.mk (s.data.map Char.toLower)

-- Model of Go strings.Join / the manual separator writing in the source.
def goIntercalate (sep : String) : List String → String
  | [] => ""
  | x :: xs => xs.foldl (fun a b => a ++ sep ++ b) x

-- Concatenation of rendered pieces, standing for sequential buffer writes.
def goConcat (ls : List String) : String :=
  ls.foldl (fun a b => a ++ b) ""

-- Model of Go strings.Trim with an explicit cutset (both ends).
def goTrimCut (s : String) (cutset : List Char) : String :=
  String.mk (((s.data.dropWhile (fun c => cutset.contains c)).reverse.dropWhile
    (fun c => cutset.contains c)).reverse)

-- Go AST type expressions, as consumed by exprToTSType (types.go).
-- selectorExpr carries the package identifier when t.X is an *ast.Ident
-- (none models a non-identifier X, in which case Go leaves pkgName empty).
-- otherExpr stands for every expression shape not handled explicitly,
-- covered by the default branch of the source switch.
mutual
inductive GoExpr where
  | ident (name : String)
  | arrayType (elt : GoExpr)
  | starExpr (x : GoExpr)
  | mapType (key val : GoExpr)
  | structType (fields : List GoField)
  | selectorExpr (pkg : Option String) (sel : String)
  | interfaceType
  | funcType
  | chanType
  | ellipsis (elt : GoExpr)
  | indexExpr
  | indexListExpr
  | otherExpr

-- A struct field: names (empty list = embedded field), type, struct tag
-- (association list, see header comment), doc comments and trailing line
-- comments (raw comment texts, as in ast.Field.Doc / ast.Field.Comment).
inductive GoField where
  | mk (names : List String) (ftype : GoExpr) (tag : List (String × String))
       (doc : List String) (comment : List String)
end

def GoField.names : GoField → List String
  | .mk ns _ _ _ _ => ns

def GoField.ftype : GoField → GoExpr
  | .mk _ t _ _ _ => t

def GoField.tag : GoField → List (String × String)
  | .mk _ _ tg _ _ => tg

def GoField.doc : GoField → List String
  | .mk _ _ _ d _ => d

def GoField.comment : GoField → List String
  | .mk _ _ _ _ c => c

-- basicTypeMap (types.go lines 16-38).
def basicTypeMap : String → Option String
  | "string" => some "string"
  | "bool" => some "boolean"
  | "byte" => some "number"
  | "rune" => some "number"
  | "int" => some "number"
  | "int8" => some "number"
  | "int16" => some "number"
  | "int32" => some "number"
  | "int64" => some "number"
  | "uint" => some "number"
  | "uint8" => some "number"
  | "uint16" => some "number"
  | "uint32" => some "number"
  | "uint64" => some "number"
  | "uintptr" => some "number"
  | "float32" => some "number"
  | "float64" => some "number"
  | "complex64" => some "number"
  | "complex128" => some "number"
  | "error" => some "string"
  | "any" => some "any"
  | _ => none

-- The registry maps type names to the declared type expression
-- (genContext.registry maps names to *ast.TypeSpec; the source only ever
-- reads spec.Type, so the expression is stored directly).  Type names are
-- unique within a Go package, so association-list lookup models the Go map.
abbrev Registry := List (String × GoExpr)

def registryFind (g : Registry) (n : String) : Option GoExpr :=
  (g.find? (fun p => p.1 = n)).map (fun p => p.2)

-- fieldContext (types.go lines 57-67); Go zero value = all defaults.
structure FieldContext where
  jsonName : String := ""
  isPtr : Bool := false
  forceNullable : Bool := false
  omitempty : Bool := false
  omitzero : Bool := false
  overrideTSType : String := ""
  insideStruct : Bool := false
  tsTagHasNullable : Bool := false
  hasExplicitTSOrType : Bool := false

-- parsedTags (types.go lines 256-267).  otherRawTag is dropped: it is
-- written and never read anywhere in the repository.
structure ParsedTags where
  jsonName : String := ""
  omitempty : Bool := false
  omitzero : Bool := false
  ts : String := ""
  ignore : Bool := false
  tsNullable : Bool := false
  tsType : String := ""

-- reflect.StructTag.Get on the association-list embedding of a tag.
def tagGet (tag : List (String × String)) (key : String) : String :=
  match tag.find? (fun p => p.1 = key) with
  | some p => p.2
  | none => ""

-- parseStructTag (types.go lines 270-320).  A nil tag is the empty list,
-- on which every lookup yields "" exactly as in the early-return case.
def parseStructTag (tag : List (String × String)) : ParsedTags :=
  let jsonTag := tagGet tag "json"
  let tsTag := tagGet tag "ts"
  let tsTypeTag := tagGet tag "ts_type"
  let pt : ParsedTags := {}
  let pt := if jsonTag ≠ "" then
      let parts := goSplitOn jsonTag ","
      { pt with jsonName := parts.headD "",
                omitempty := (parts.drop 1).contains "omitempty",
                omitzero := (parts.drop 1).contains "omitzero" }
    else pt
  let pt := if tsTag ≠ "" then
      { pt with ts := tsTag,
                ignore := tsTag == "ignore",
                tsNullable := tsTag == "nullable" }
    else pt
  let pt := if tsTypeTag ≠ "" then { pt with tsType := goTrimSpace tsTypeTag } else pt
  pt

-- normalizeComment (types.go lines 349-366).
def normalizeComment (text : String) : List String :=
  if goStartsWith text "/*" then
    (goSplitOn (goTrimCut text ['/', '*']) "\n").filterMap (fun p =>
      let q := goTrimSpace (goDropPre (goTrimSpace p) "*")
      if q ≠ "" then some q else none)
  else
    [goTrimSpace (goDropPre text "//")]

-- hasTSIgnoreOnField (types.go lines 323-347).
def hasTSIgnoreOnField (fld : GoField) : Bool :=
  let lines := fld.doc.flatMap normalizeComment ++ fld.comment.flatMap normalizeComment
  match lines.getLast? with
  | some last => last == "ts ignore //"
  | none => false

def isPtrType : GoExpr → Bool
  | .starExpr _ => true
  | _ => false

def isSliceType : GoExpr → Bool
  | .arrayType _ => true
  | _ => false

def isMapType : GoExpr → Bool
  | .mapType _ _ => true
  | _ => false

def isIdentByte : GoExpr → Bool
  | .ident n => n == "byte" || n == "uint8"
  | _ => false

-- wrapIfUnion (types.go lines 532-537).
def wrapIfUnion (ts : String) : String :=
  if goContains ts " " || goContains ts "|" || goStartsWith ts "\x7b" then
    "(" ++ ts ++ ")"
  else ts

-- tsOverrideToType (types.go lines 547-568).
def tsOverrideToType (v : String) : String :=
  match v with
  | "string" => "string"
  | "number" => "number"
  | "boolean" => "boolean"
  | "object" => "Record<string, any>"
  | "array" => "any[]"
  | "any" => "any"
  | "Uint8Array" => "Uint8Array"
  | "ArrayBuffer" => "ArrayBuffer"
  | _ => "any"

-- mapKeyToTS (types.go lines 570-603).
def mapKeyToTS : GoExpr → String
  | .ident name =>
    if name = "string" then "string"
    else if name = "bool" then "string"
    else
      match basicTypeMap name with
      | some _ => if name = "string" then "string" else "number"
      | none => "string"
  | .starExpr _ => "string"
  | .selectorExpr _ _ => "string"
  | _ => "string"

-- The four mutually recursive emission functions of types.go.  Record
-- updates {ctx with ...} stand for the full fieldContext literals the
-- source constructs: the source copies every unmentioned field from ctx
-- unchanged, which is exactly what the record update does.
mutual
-- exprToTSType (types.go lines 385-530).
def exprToTSType (g : Registry) : Nat → GoExpr → FieldContext → String
  | 0, _, _ => "any"
  | fuel+1, expr, ctx =>
    match expr with
    | .ident name =>
      if name = "any" then "any"
      else
        match basicTypeMap name with
        | some ts => ts
        | none =>
          match registryFind g name with
          | some _ => name
          | none => "any"
    | .arrayType elt =>
      if isIdentByte elt then
        if ctx.overrideTSType ≠ "" then tsOverrideToType ctx.overrideTSType
        else "string"
      else
        wrapIfUnion (exprToTSType g fuel elt
          { ctx with isPtr := false, forceNullable := false, overrideTSType := "" }) ++ "[]"
    | .starExpr x =>
      exprToTSType g fuel x { ctx with isPtr := true }
    | .mapType key val =>
      "Record<" ++ mapKeyToTS key ++ ", " ++
        exprToTSType g fuel val
          { ctx with isPtr := false, forceNullable := false, overrideTSType := "" } ++ ">"
    | .structType fs =>
      let fields := collectStructFields g fuel fs
      if fields.isEmpty then "\x7b\x7d"
      else "\x7b " ++ goIntercalate " " (fields.map goTrimSpace) ++ " \x7d"
    | .selectorExpr pkgIdent sel =>
      let pkgName := match pkgIdent with
        | some p => p
        | none => ""
      let qname := if pkgName ≠ "" then pkgName ++ "." ++ sel else sel
      if qname = "json.RawMessage" ∨ qname = "encoding/json.RawMessage" then
        if ctx.overrideTSType = "array" then "any[]"
        else if ctx.overrideTSType = "object" then "Record<string, any>"
        else "any"
      else if qname = "time.Time" then "string"
      else "any"
    | .interfaceType => "any"
    | .funcType => "any"
    | .chanType => "any"
    | .ellipsis elt =>
      wrapIfUnion (exprToTSType g fuel elt {}) ++ "[]"
    | .indexExpr => "any"
    | .indexListExpr => "any"
    | .otherExpr => "any"
termination_by structural fuel _ _ => fuel

-- collectStructFields (types.go lines 82-112).
def collectStructFields (g : Registry) : Nat → List GoField → List String
  | 0, _ => []
  | fuel+1, flds =>
    flds.flatMap (fun fld =>
      match fld.names with
      | [] => expandEmbeddedField g fuel fld
      | ns => (ns.map (fun nameIdent => generateFieldLine g fuel nameIdent fld)).filter
          (fun l => l ≠ ""))
termination_by structural fuel _ => fuel

-- expandEmbeddedField (types.go lines 118-163).
def expandEmbeddedField (g : Registry) : Nat → GoField → List String
  | 0, _ => []
  | fuel+1, fld =>
    match fld.ftype with
    | .ident name =>
      match registryFind g name with
      | none => []
      | some specType =>
        match specType with
        | .structType fs => collectStructFields g fuel fs
        | _ => []
    | .starExpr x =>
      match x with
      | .ident name =>
        match registryFind g name with
        | none => []
        | some specType =>
          match specType with
          | .structType fs => collectStructFields g fuel fs
          | _ => []
      | .structType fs => collectStructFields g fuel fs
      | _ => []
    | .structType fs => collectStructFields g fuel fs
    | _ => []
termination_by structural fuel _ => fuel

-- generateFieldLine (types.go lines 166-254).
def generateFieldLine (g : Registry) : Nat → String → GoField → String
  | 0, _, _ => ""
  | fuel+1, goFieldName, fld =>
    let hasIgnoreComment := hasTSIgnoreOnField fld
    let tags := parseStructTag fld.tag
    let hasTsTag := tags.ts != ""
    let hasTsTypeTag := tags.tsType != ""
    if hasIgnoreComment && !(hasTsTag || hasTsTypeTag) then ""
    else if tags.ignore then ""
    else if tags.jsonName == "-" then ""
    else
      let propName := if tags.jsonName == "" then goFieldName else tags.jsonName
      let isPtr := isPtrType fld.ftype
      let isSlice := isSliceType fld.ftype
      let isMap := isMapType fld.ftype
      let optional := (isPtr || tags.omitempty) || tags.omitzero
      let nullable := ((isPtr || (isSlice || isMap))) || tags.tsNullable
      let ctx : FieldContext :=
        { jsonName := propName, isPtr := isPtr, forceNullable := nullable,
          omitempty := tags.omitempty, omitzero := tags.omitzero,
          overrideTSType := tags.tsType, insideStruct := true,
          tsTagHasNullable := tags.tsNullable,
          hasExplicitTSOrType := hasTsTag || hasTsTypeTag }
      let tsType0 := exprToTSType g fuel fld.ftype ctx
      let qs := if optional then "?" else ""
      let tsType := if nullable && !(goContains tsType0 "| null") then tsType0 ++ " | null"
        else tsType0
      propName ++ qs ++ ": " ++ tsType ++ ";"
termination_by structural fuel _ _ => fuel
end


-- Emission layer (generator.go).

-- One type declaration of the package: ast.TypeSpec restricted to what the
-- generator reads (name, declared type, attached doc comment texts).
structure TypeSpecM where
  name : String
  typeExpr : GoExpr
  docComments : List String

-- pkgData plus the derived per-package inputs of Generate: the type specs
-- in declaration order and the doc map built by buildTypeDocMap.
structure PkgM where
  pkgName : String
  importPath : String
  specs : List TypeSpecM
  typeDocMap : List (String × List String)
  typeFilter : String

-- buildTypeRegistry (generator.go lines 333-357): name-indexed registry of
-- every type declaration; names are unique within a Go package.
def buildTypeRegistry (pkg : PkgM) : Registry :=
  pkg.specs.map (fun s => (s.name, s.typeExpr))

-- hasTSIgnoreType (generator.go lines 282-312).
def hasTSIgnoreType (spec : TypeSpecM) : Bool :=
  let texts := spec.docComments.flatMap (fun ctext =>
    if goStartsWith ctext "/*" then
      (goSplitOn (goTrimCut ctext ['/', '*']) "\n").filterMap (fun ln =>
        let t := goTrimSpace (goDropPre (goDropPre ln "//") "*")
        if t ≠ "" then some t else none)
    else
      [goTrimSpace (goDropPre ctext "//")])
  match texts.getLast? with
  | some last => last == "ts ignore //"
  | none => false

-- Lookup in the typeDocMap Go map (absent name = no doc lines).
def docMapGet (m : List (String × List String)) (name : String) : List String :=
  match m.find? (fun p => p.1 = name) with
  | some p => p.2
  | none => []

-- emitDocLines (generator.go lines 267-278), as the string it appends.
def emitDocLines (docLines : List String) : String :=
  goConcat (docLines.map (fun l => if l = "" then "//\n" else "// " ++ l ++ "\n"))

-- writeHeader (generator.go lines 258-265).
def writeHeader (pkgName importPath : String) : String :=
  "// Code generated by go-ts-types. DO NOT EDIT.\n" ++
  "// Package: " ++ pkgName ++ "\n" ++
  (if importPath ≠ "" then "// Import Path: " ++ importPath ++ "\n" else "") ++
  "\n"

-- generateInterface (types.go lines 70-79), as the string it appends.
def generateInterface (g : Registry) (fuel : Nat) (name : String)
    (fields : List GoField) : String :=
  "export interface " ++ name ++ " \x7b\n" ++
  goConcat ((collectStructFields g fuel fields).map (fun f => "  " ++ f ++ "\n")) ++
  "\x7d\n"

-- sortStrings (generator.go lines 365-370): a no-op below two elements,
-- sort.Strings otherwise.
def sortStrings (ss : List String) : List String :=
  if ss.length < 2 then ss else ss.mergeSort (fun a b => decide (a ≤ b))

-- The filter step of Generate (generator.go lines 129-141).
def filteredSpecs (pkg : PkgM) : List TypeSpecM :=
  if pkg.typeFilter ≠ "" then pkg.specs.filter (fun s => s.name == pkg.typeFilter)
  else pkg.specs

-- Go map lookup among the filtered specs.  eraseDups below models the
-- distinctness of Go map keys; under the package invariant that type names
-- are unique both coincide with the source map exactly.
def specLookup (pkg : PkgM) (name : String) : Option TypeSpecM :=
  (filteredSpecs pkg).find? (fun s => s.name == name)

-- The name-sorted emission order of Generate (generator.go lines 144-160):
-- collect the map keys, sort them, and drop the type-ignored ones.
def emittedTypeNames (pkg : PkgM) : List String :=
  (sortStrings (((filteredSpecs pkg).map (fun s => s.name)).eraseDups)).filter
    (fun n =>
      match specLookup pkg n with
      | some s => !(hasTSIgnoreType s)
      | none => false)

-- The declaration rendered for one emitted type name (generator.go lines
-- 161-187): doc lines, then an interface for a struct or an export-type
-- alias for anything else.
def renderTypeDecl (g : Registry) (fuel : Nat) (pkg : PkgM) (name : String) : String :=
  match specLookup pkg name with
  | none => ""
  | some s =>
    let docLines := docMapGet pkg.typeDocMap name
    match s.typeExpr with
    | .structType fs =>
      emitDocLines docLines ++ generateInterface g fuel name fs ++ "\n"
    | t =>
      emitDocLines docLines ++ "export type " ++ name ++ " = " ++
        exprToTSType g fuel t {} ++ ";\n\n"

-- The per-package output buffer of Generate (generator.go lines 117-189).
def generatePackage (fuel : Nat) (pkg : PkgM) : String :=
  let g := buildTypeRegistry pkg
  writeHeader pkg.pkgName pkg.importPath ++
  goConcat ((emittedTypeNames pkg).map (renderTypeDecl g fuel pkg))

-- Filesystem orchestration of Generate (generator.go lines 30-255).
-- The filesystem is modelled as a set of directories and files; the os
-- primitives MkdirAll / RemoveAll / WriteFile always succeed on the model
-- state except WriteFile, whose success is governed by the writeOk oracle
-- (modelling disk errors).  RemoveAll removes the path and everything
-- below it; MkdirAll registers the directory (parents are abstracted, as
-- nothing in the source ever reads them).

structure FS where
  dirs : List String
  files : List (String × String)

def underPath (root p : String) : Bool :=
  goStartsWith p (root ++ "/")

def FS.removeAll (fs : FS) (p : String) : FS :=
  { dirs := fs.dirs.filter (fun d => !(d == p || underPath p d)),
    files := fs.files.filter (fun f => !(f.1 == p || underPath p f.1)) }

def FS.mkdirAll (fs : FS) (p : String) : FS :=
  { fs with dirs := p :: fs.dirs }

def FS.writeFile (fs : FS) (p c : String) : FS :=
  { fs with files := (p, c) :: fs.files.filter (fun f => f.1 != p) }

def FS.hasFileAt (fs : FS) (p : String) : Bool :=
  fs.files.any (fun f => f.1 == p)

def FS.hasDir (fs : FS) (p : String) : Bool :=
  fs.dirs.any (fun d => d == p)

def FS.dirNotEmpty (fs : FS) (p : String) : Bool :=
  fs.dirs.any (fun d => underPath p d) || fs.files.any (fun f => underPath p f.1)

-- checkDirStatus (generator.go lines 223-243): a file at the path is the
-- stat-succeeds-but-not-a-directory error; an absent path is (false, false).
def checkDirStatus (fs : FS) (path : String) : Except String (Bool × Bool) :=
  if fs.hasFileAt path then .error "output path exists but is not a directory"
  else if fs.hasDir path then .ok (true, fs.dirNotEmpty path)
  else .ok (false, false)

-- Model of filepath.Dir for slash-separated paths without trailing slash.
def goFilepathDir (p : String) : String :=
  let parts := goSplitOn p "/"
  if parts.length ≤ 1 then "." else goIntercalate "/" parts.dropLast

structure PackOut where
  pkgName : String
  content : String

-- writePackagesToDir (generator.go lines 246-255): write each package file
-- in order, stopping at the first failed write.
def writePackagesToDir (writeOk : String → Bool) (dir : String) :
    FS → List PackOut → FS × Except String Unit
  | fs, [] => (fs, .ok ())
  | fs, r :: rest =>
    let filename := dir ++ "/" ++ r.pkgName ++ ".d.ts"
    if writeOk filename then
      writePackagesToDir writeOk dir (fs.writeFile filename r.content) rest
    else (fs, .error "failed to write package file")

-- The single-file concatenation of Generate (generator.go lines 194-205).
def singleFileConcat (results : List PackOut) : String :=
  goConcat (results.enum.map (fun ri =>
    (if ri.1 > 0 then "\n" else "") ++
    "// " ++ String.mk (List.replicate 53 '=') ++ "\n" ++
    "// Package: " ++ ri.2.pkgName ++ "\n" ++
    "// " ++ String.mk (List.replicate 53 '=') ++ "\n\n" ++
    ri.2.content))

def isSingleFileOut (output : String) : Bool :=
  goEndsWith (goToLower output) ".d.ts"

-- The output-target preparation step of Generate (generator.go lines
-- 38-77).  In single-file mode the parent directory is created; otherwise
-- the output directory is inspected, a non-empty one is removed and
-- recreated, and createdDir records that a directory-mode target was set
-- up (true on every successful directory-mode path, as in the source).
def prepareOutput (fs : FS) (output : String) : Except String (FS × Bool) :=
  if isSingleFileOut output then .ok (fs.mkdirAll (goFilepathDir output), false)
  else
    match checkDirStatus fs output with
    | .error _ => .error "failed to check output directory status"
    | .ok (ex, notEmpty) =>
      if ex && notEmpty then .ok ((fs.removeAll output).mkdirAll output, true)
      else if ex && !notEmpty then .ok (fs, true)
      else .ok (fs.mkdirAll output, true)

-- Generate (generator.go lines 30-220).  The loader outcome is a parameter
-- (loadRes), since loading consults the real toolchain; everything from
-- argument validation through output writing follows the source branch for
-- branch.  The returned pair is the final filesystem and the Go error.
def generateModel (fuel : Nat) (writeOk : String → Bool) (input output : String)
    (loadRes : Except String (List PkgM)) (fs : FS) : FS × Except String Unit :=
  if input = "" then
    (fs, .error "input is required, provide a go package path, local dir/file, or package.Type")
  else if output = "" then
    (fs, .error "output is required, provide a .d.ts file or a directory")
  else
    match prepareOutput fs output with
    | .error e => (fs, .error e)
    | .ok (fs1, createdDir) =>
      match loadRes with
      | .error e =>
        if !isSingleFileOut output && createdDir then (fs1.removeAll output, .error e)
        else (fs1, .error e)
      | .ok pkgs =>
        if pkgs.isEmpty then
          if !isSingleFileOut output && createdDir then
            (fs1.removeAll output, .error "no packages found for the given input")
          else (fs1, .error "no packages found for the given input")
        else
          if isSingleFileOut output then
            if writeOk output then
              (fs1.writeFile output (singleFileConcat
                (pkgs.map (fun p => PackOut.mk p.pkgName (generatePackage fuel p)))), .ok ())
            else (fs1, .error "failed to write output file")
          else
            match writePackagesToDir writeOk output fs1
                (pkgs.map (fun p => PackOut.mk p.pkgName (generatePackage fuel p))) with
            | (fs2, .ok _) => (fs2, .ok ())
            | (fs2, .error e) => (fs2.removeAll output, .error e)

-- Loader models (the second source file of the package, loader part).
-- Outcomes of the external facilities (filepath.Abs, os.Stat,
-- parser.ParseDir, packages.Load, parser.ParseFile) are parameters; the
-- selection and classification logic is the source code.

structure PkgDataM where
  pkgName : String
  importPath : String
  typeFilter : String

-- splitImportType.
def goLastIndex (s : String) (c : Char) : Int :=
  match s.data.reverse.findIdx? (fun x => x = c) with
  | none => -1
  | some i => (s.data.length : Int) - 1 - (i : Int)

def splitImportType (s : String) : String × String :=
  let lastSlash := goLastIndex s '/'
  let lastDot := goLastIndex s '.'
  if lastDot > lastSlash ∧ lastDot ≠ -1 then
    (String.mk (s.data.take lastDot.toNat), String.mk (s.data.drop (lastDot.toNat + 1)))
  else (s, "")

-- isLikelyPath.
def isLikelyPath (p : String) : Bool :=
  if goStartsWith p "./" then true
  else if goStartsWith p "../" then true
  else if goStartsWith p "/" then true
  else if goContains p "/" then true
  else false

-- loadFromDir: pkgNames is the parser.ParseDir result in Go map iteration
-- order; the chosen package is the first non-test-suffixed name, falling
-- back to the first iterated one.
def loadFromDirM (absOk isDirOk : Bool) (parsed : Except Unit (List String))
    (absPath : String) : Except String (List PkgDataM) :=
  if !absOk then .error "failed to resolve directory path"
  else if !isDirOk then .error "directory path is invalid"
  else
    match parsed with
    | .error _ => .error "failed to parse directory"
    | .ok pkgNames =>
      match pkgNames with
      | [] => .error "no go packages found in the directory"
      | first :: _ =>
        let chosenName :=
          match pkgNames.find? (fun n => !(goEndsWith n "_test")) with
          | some n => n
          | none => first
        .ok [⟨chosenName, absPath, ""⟩]

-- loadFromFile: resolve, require a non-directory file, defer to the
-- containing directory.
def loadFromFileM (fileAbsOk fileOk : Bool) (absOk isDirOk : Bool)
    (parsed : Except Unit (List String)) (absPath : String) :
    Except String (List PkgDataM) :=
  if !fileAbsOk then .error "failed to resolve file path"
  else if !fileOk then .error "file path is invalid or points to a directory"
  else loadFromDirM absOk isDirOk parsed absPath

-- loadFromImportOrType: loadedPkgs is the packages.Load result as
-- (name, pkgPath) pairs; only the first is used.
def loadFromImportOrTypeM (path : String) (loadOk : Bool) (printErrorCount : Nat)
    (loadedPkgs : List (String × String)) (parseFilesOk : Bool) :
    Except String (List PkgDataM) :=
  let it := splitImportType path
  if !loadOk then .error "failed to load package by import path"
  else if printErrorCount > 0 then .error "package contains build or load errors"
  else
    match loadedPkgs with
    | [] => .error "no packages matched the import path"
    | pkg0 :: _ =>
      if !parseFilesOk then .error "failed to parse package files"
      else .ok [⟨pkg0.1, pkg0.2, it.2⟩]

-- loadFromInput: classification by suffix and path shape, first match wins.
def loadFromInputM (input : String) (fileAbsOk fileOk absOk isDirOk : Bool)
    (parsed : Except Unit (List String)) (absPath : String) (loadOk : Bool)
    (printErrorCount : Nat) (loadedPkgs : List (String × String))
    (parseFilesOk : Bool) : Except String (List PkgDataM) :=
  if goEndsWith (goToLower input) ".go" then
    loadFromFileM fileAbsOk fileOk absOk isDirOk parsed absPath
  else if isLikelyPath input then
    loadFromDirM absOk isDirOk parsed absPath
  else
    loadFromImportOrTypeM input loadOk printErrorCount loadedPkgs parseFilesOk

-- Shared helper lemmas.

theorem hasSubList_append_right (sub l1 l2 : List Char) (h : hasSubList sub l2 = true) :
    hasSubList sub (l1 ++ l2) = true := by
  induction l1 with
  | nil => simpa using h
  | cons c cs ih =>
    simp only [List.cons_append, hasSubList, Bool.or_eq_true]
    exact Or.inr ih

theorem goContains_append_pipe_null (s : String) :
    goContains (s ++ " | null") "| null" = true := by
  unfold goContains
  rw [String.data_append]
  apply hasSubList_append_right
  decide

-- Claims.

/-- Claim C1: for every Go identifier naming a builtin scalar type (string,
bool, byte, rune, all int and uint variants, uintptr, float32/64,
complex64/128, error, any), the type mapper returns exactly the fixed
basicTypeMap entry (string to string, bool to boolean, every numeric to
number, error to string, any to any), and the result does not depend on the
field context passed in. -/
theorem exprToTSType_builtin_table (g : Registry) (fuel : Nat) (ctx ctx2 : FieldContext) :
    (exprToTSType g (fuel+1) (.ident "string") ctx = "string" ∧
     exprToTSType g (fuel+1) (.ident "bool") ctx = "boolean" ∧
     exprToTSType g (fuel+1) (.ident "byte") ctx = "number" ∧
     exprToTSType g (fuel+1) (.ident "rune") ctx = "number" ∧
     exprToTSType g (fuel+1) (.ident "int") ctx = "number" ∧
     exprToTSType g (fuel+1) (.ident "int8") ctx = "number" ∧
     exprToTSType g (fuel+1) (.ident "int16") ctx = "number" ∧
     exprToTSType g (fuel+1) (.ident "int32") ctx = "number" ∧
     exprToTSType g (fuel+1) (.ident "int64") ctx = "number" ∧
     exprToTSType g (fuel+1) (.ident "uint") ctx = "number" ∧
     exprToTSType g (fuel+1) (.ident "uint8") ctx = "number" ∧
     exprToTSType g (fuel+1) (.ident "uint16") ctx = "number" ∧
     exprToTSType g (fuel+1) (.ident "uint32") ctx = "number" ∧
     exprToTSType g (fuel+1) (.ident "uint64") ctx = "number" ∧
     exprToTSType g (fuel+1) (.ident "uintptr") ctx = "number" ∧
     exprToTSType g (fuel+1) (.ident "float32") ctx = "number" ∧
     exprToTSType g (fuel+1) (.ident "float64") ctx = "number" ∧
     exprToTSType g (fuel+1) (.ident "complex64") ctx = "number" ∧
     exprToTSType g (fuel+1) (.ident "complex128") ctx = "number" ∧
     exprToTSType g (fuel+1) (.ident "error") ctx = "string" ∧
     exprToTSType g (fuel+1) (.ident "any") ctx = "any") ∧
    (∀ name, exprToTSType g (fuel+1) (.ident name) ctx =
             exprToTSType g (fuel+1) (.ident name) ctx2) :=
  ⟨⟨rfl, rfl, rfl, rfl, rfl, rfl, rfl, rfl, rfl, rfl, rfl, rfl, rfl, rfl, rfl,
    rfl, rfl, rfl, rfl, rfl, rfl⟩, fun _ => rfl⟩

/-- Claim C3: for a slice or array type whose element is not byte/uint8, the
mapped type is the element mapping with [] appended, and the element mapping
is wrapped in parentheses exactly when it contains a space, contains a pipe,
or starts with an opening brace. -/
theorem exprToTSType_slice_wrap (g : Registry) (fuel : Nat) (ctx : FieldContext)
    (elt : GoExpr) (h : isIdentByte elt = false) :
    exprToTSType g (fuel+1) (.arrayType elt) ctx =
      wrapIfUnion (exprToTSType g fuel elt
        { ctx with isPtr := false, forceNullable := false, overrideTSType := "" }) ++ "[]" ∧
    (∀ s : String,
      ((goContains s " " || goContains s "|" || goStartsWith s "\x7b") = true →
        wrapIfUnion s = "(" ++ s ++ ")") ∧
      ((goContains s " " || goContains s "|" || goStartsWith s "\x7b") = false →
        wrapIfUnion s = s)) := by
  constructor
  · simp [exprToTSType, h]
  · intro s
    constructor <;> intro hs <;> simp [wrapIfUnion, hs]

theorem exprToTSType_slice_wrap_witness :
    exprToTSType [] 2 (.arrayType (.ident "int")) {} = "number[]" := by
  have h := (exprToTSType_slice_wrap [] 1 {} (.ident "int") (by decide)).1
  rw [h]
  decide

/-- Claim C4 counterexample: for a []byte field carrying the ts_type
override "array", the emitted type is "any[]", not the override token
"array" itself, so the override is not honored literally for array (nor,
symmetrically, for object, which maps to a Record type). -/
theorem ts_override_array_not_literal :
    exprToTSType [] 1 (.arrayType (.ident "byte")) { overrideTSType := "array" } = "any[]" ∧
    ("any[]" : String) ≠ "array" := by
  constructor
  · decide
  · decide

/-- Claim C4 (amended): a []byte or []uint8 field maps to string when no
ts_type override directive is present; with an override from the fixed
vocabulary the directive is honored through tsOverrideToType, yielding the
tokens Uint8Array and ArrayBuffer literally, but mapping array to any[] and
object to Record<string, any>. -/
theorem exprToTSType_byte_slice_override (g : Registry) (fuel : Nat) (ctx : FieldContext)
    (elt : GoExpr) (hb : isIdentByte elt = true) :
    (ctx.overrideTSType = "" →
      exprToTSType g (fuel+1) (.arrayType elt) ctx = "string") ∧
    (ctx.overrideTSType = "array" →
      exprToTSType g (fuel+1) (.arrayType elt) ctx = "any[]") ∧
    (ctx.overrideTSType = "object" →
      exprToTSType g (fuel+1) (.arrayType elt) ctx = "Record<string, any>") ∧
    (ctx.overrideTSType = "Uint8Array" →
      exprToTSType g (fuel+1) (.arrayType elt) ctx = "Uint8Array") ∧
    (ctx.overrideTSType = "ArrayBuffer" →
      exprToTSType g (fuel+1) (.arrayType elt) ctx = "ArrayBuffer") := by
  refine ⟨?_, ?_, ?_, ?_, ?_⟩ <;>
    intro hov <;> simp [exprToTSType, hb, hov, tsOverrideToType]

theorem exprToTSType_byte_slice_override_witness :
    exprToTSType [] 1 (.arrayType (.ident "byte")) {} = "string" ∧
    exprToTSType [] 1 (.arrayType (.ident "uint8"))
      { overrideTSType := "Uint8Array" } = "Uint8Array" :=
  ⟨(exprToTSType_byte_slice_override [] 0 {} (.ident "byte") (by decide)).1 rfl,
   (exprToTSType_byte_slice_override [] 0 { overrideTSType := "Uint8Array" }
      (.ident "uint8") (by decide)).2.2.2.1 rfl⟩

/-- Claim C9: the type mapper is total (a Lean function into String, with
no error or exceptional outcome); an identifier that is neither a builtin
nor registered locally yields "any", and interface, function, channel and
generic-instantiation expressions, as well as the otherwise-unhandled
shape, all yield "any". -/
theorem exprToTSType_total_any (g : Registry) (fuel : Nat) (ctx : FieldContext) :
    (∀ name, basicTypeMap name = none → registryFind g name = none →
      exprToTSType g (fuel+1) (.ident name) ctx = "any") ∧
    exprToTSType g (fuel+1) .interfaceType ctx = "any" ∧
    exprToTSType g (fuel+1) .funcType ctx = "any" ∧
    exprToTSType g (fuel+1) .chanType ctx = "any" ∧
    exprToTSType g (fuel+1) .indexExpr ctx = "any" ∧
    exprToTSType g (fuel+1) .indexListExpr ctx = "any" ∧
    exprToTSType g (fuel+1) .otherExpr ctx = "any" := by
  refine ⟨?_, rfl, rfl, rfl, rfl, rfl, rfl⟩
  intro name h1 h2
  by_cases hn : name = "any"
  · subst hn; simp [basicTypeMap] at h1
  · simp [exprToTSType, hn, h1, h2]

theorem exprToTSType_total_any_witness :
    exprToTSType [] 1 (.ident "Foo") {} = "any" :=
  (exprToTSType_total_any [] 0 {}).1 "Foo" rfl rfl

-- Helper for stating C5/C6: a field with its attached comments removed.
def stripFieldComments : GoField → GoField
  | .mk ns t tg _ _ => .mk ns t tg [] []

-- Helper predicate for stating C6: is the expression a struct type.
def isStructExpr : GoExpr → Bool
  | .structType _ => true
  | _ => false

/-- Claim C2: for a named struct field with no tag and no comments, a
pointer field is emitted optional and nullable (name, "?", and a type
containing "| null"), and a slice or map field is emitted nullable but not
optional; for any field, a json omitempty or omitzero segment forces the
"?" suffix, and a ts nullable tag forces a type containing "| null";
" | null" is appended exactly when the type string does not already contain
"| null". -/
theorem generateFieldLine_nullability (g : Registry) (fuel : Nat) (name : String) :
    (∀ fld : GoField, fld.tag = [] → hasTSIgnoreOnField fld = false →
      isPtrType fld.ftype = true →
      ∃ ts, generateFieldLine g (fuel+1) name fld = name ++ "?" ++ ": " ++ ts ++ ";" ∧
        goContains ts "| null" = true) ∧
    (∀ fld : GoField, fld.tag = [] → hasTSIgnoreOnField fld = false →
      (isSliceType fld.ftype || isMapType fld.ftype) = true →
      ∃ ts, generateFieldLine g (fuel+1) name fld = name ++ "" ++ ": " ++ ts ++ ";" ∧
        goContains ts "| null" = true) ∧
    (∀ fld : GoField,
      ((parseStructTag fld.tag).omitempty || (parseStructTag fld.tag).omitzero) = true →
      (parseStructTag fld.tag).ignore = false →
      (parseStructTag fld.tag).jsonName ≠ "-" →
      hasTSIgnoreOnField fld = false →
      ∃ ts, generateFieldLine g (fuel+1) name fld =
        (if (parseStructTag fld.tag).jsonName = "" then name
         else (parseStructTag fld.tag).jsonName) ++ "?" ++ ": " ++ ts ++ ";") ∧
    (∀ fld : GoField,
      tagGet fld.tag "ts" = "nullable" →
      (parseStructTag fld.tag).jsonName ≠ "-" →
      ∃ ts,
        (generateFieldLine g (fuel+1) name fld =
          (if (parseStructTag fld.tag).jsonName = "" then name
           else (parseStructTag fld.tag).jsonName) ++ "?" ++ ": " ++ ts ++ ";" ∨
         generateFieldLine g (fuel+1) name fld =
          (if (parseStructTag fld.tag).jsonName = "" then name
           else (parseStructTag fld.tag).jsonName) ++ ": " ++ ts ++ ";") ∧
        goContains ts "| null" = true) := by
  refine ⟨?_, ?_, ?_, ?_⟩
  · intro fld htag hIg0 hptr
    obtain ⟨ns, t, tg, d, c⟩ := fld
    simp only [GoField.tag] at htag
    simp only [GoField.ftype] at hptr
    subst htag
    have hIg : hasTSIgnoreOnField (.mk ns t [] d c) = false := hIg0
    by_cases hnull : goContains (exprToTSType g fuel t
        { jsonName := name, isPtr := true, forceNullable := true,
          omitempty := false, omitzero := false, overrideTSType := "",
          insideStruct := true, tsTagHasNullable := false,
          hasExplicitTSOrType := false }) "| null"
    · refine ⟨exprToTSType g fuel t
        { jsonName := name, isPtr := true, forceNullable := true,
          omitempty := false, omitzero := false, overrideTSType := "",
          insideStruct := true, tsTagHasNullable := false,
          hasExplicitTSOrType := false }, ?_, hnull⟩
      simp [generateFieldLine, hIg, GoField.tag, GoField.ftype, parseStructTag, tagGet, hptr, hnull]
      exact fun h => absurd h (by decide)
    · refine ⟨exprToTSType g fuel t
        { jsonName := name, isPtr := true, forceNullable := true,
          omitempty := false, omitzero := false, overrideTSType := "",
          insideStruct := true, tsTagHasNullable := false,
          hasExplicitTSOrType := false } ++ " | null", ?_, goContains_append_pipe_null _⟩
      simp [generateFieldLine, hIg, GoField.tag, GoField.ftype, parseStructTag, tagGet, hptr, hnull]
      exact fun h => absurd h (by decide)
  · intro fld htag hIg0 hsm
    obtain ⟨ns, t, tg, d, c⟩ := fld
    simp only [GoField.tag] at htag
    simp only [GoField.ftype] at hsm
    subst htag
    have hIg : hasTSIgnoreOnField (.mk ns t [] d c) = false := hIg0
    have hp : isPtrType t = false := by
      cases t <;> simp_all [isPtrType, isSliceType, isMapType]
    by_cases hnull : goContains (exprToTSType g fuel t
        { jsonName := name, isPtr := false, forceNullable := true,
          omitempty := false, omitzero := false, overrideTSType := "",
          insideStruct := true, tsTagHasNullable := false,
          hasExplicitTSOrType := false }) "| null"
    · refine ⟨exprToTSType g fuel t
        { jsonName := name, isPtr := false, forceNullable := true,
          omitempty := false, omitzero := false, overrideTSType := "",
          insideStruct := true, tsTagHasNullable := false,
          hasExplicitTSOrType := false }, ?_, hnull⟩
      simp [generateFieldLine, hIg, GoField.tag, GoField.ftype, parseStructTag, tagGet,
        hp, hsm, hnull]
      exact fun h => absurd h (by decide)
    · refine ⟨exprToTSType g fuel t
        { jsonName := name, isPtr := false, forceNullable := true,
          omitempty := false, omitzero := false, overrideTSType := "",
          insideStruct := true, tsTagHasNullable := false,
          hasExplicitTSOrType := false } ++ " | null", ?_, goContains_append_pipe_null _⟩
      simp [generateFieldLine, hIg, GoField.tag, GoField.ftype, parseStructTag, tagGet,
        hp, hsm, hnull]
      exact fun h => absurd h (by decide)
  · intro fld homit hig hjson hcom
    obtain ⟨ns, t, tg, d, c⟩ := fld
    simp only [GoField.tag] at homit hig hjson
    have homit2 : (parseStructTag tg).omitempty = true ∨ (parseStructTag tg).omitzero = true := by
      simpa using homit
    have hopt : ((isPtrType t || (parseStructTag tg).omitempty) ||
        (parseStructTag tg).omitzero) = true := by
      rcases homit2 with h | h <;> simp [h]
    simp only [generateFieldLine, GoField.tag, GoField.ftype, hcom]
    simp [hig, hjson, hopt]
    exact ⟨_, rfl⟩
  · intro fld hts hjson
    obtain ⟨ns, t, tg, d, c⟩ := fld
    simp only [GoField.tag] at hts hjson
    have htags : (parseStructTag tg).ts = "nullable" ∧ (parseStructTag tg).ignore = false ∧
        (parseStructTag tg).tsNullable = true := by
      by_cases h1 : tagGet tg "json" = "" <;> by_cases h2 : tagGet tg "ts_type" = "" <;>
        simp [parseStructTag, hts, h1, h2]
    by_cases hopt : ((isPtrType t || (parseStructTag tg).omitempty) ||
        (parseStructTag tg).omitzero) = true
    · simp only [generateFieldLine, GoField.tag, GoField.ftype]
      simp [htags.1, htags.2.1, htags.2.2, hjson, hopt]
      split <;> split <;>
        first
        | exact ⟨_, Or.inl rfl, goContains_append_pipe_null _⟩
        | (rename_i h; exact ⟨_, Or.inl rfl, by simpa using h⟩)
    · have hopt2 : ((isPtrType t || (parseStructTag tg).omitempty) ||
          (parseStructTag tg).omitzero) = false := by
        simpa using hopt
      simp only [generateFieldLine, GoField.tag, GoField.ftype]
      simp [htags.1, htags.2.1, htags.2.2, hjson, hopt2]
      split <;> split <;>
        first
        | exact ⟨_, Or.inr rfl, goContains_append_pipe_null _⟩
        | (rename_i h; exact ⟨_, Or.inr rfl, by simpa using h⟩)

theorem generateFieldLine_nullability_witness :
    (∃ ts, generateFieldLine [] 2 "P" (.mk ["P"] (.starExpr (.ident "int")) [] [] []) =
      "P" ++ "?" ++ ": " ++ ts ++ ";" ∧ goContains ts "| null" = true) ∧
    (∃ ts, generateFieldLine [] 2 "Tags" (.mk ["Tags"] (.arrayType (.ident "string")) [] [] []) =
      "Tags" ++ "" ++ ": " ++ ts ++ ";" ∧ goContains ts "| null" = true) ∧
    (∃ ts, generateFieldLine [] 2 "N"
        (.mk ["N"] (.ident "int") [("json", "n,omitempty")] [] []) =
      (if (parseStructTag (GoField.mk ["N"] (.ident "int")
          [("json", "n,omitempty")] [] []).tag).jsonName = "" then "N"
       else (parseStructTag (GoField.mk ["N"] (.ident "int")
          [("json", "n,omitempty")] [] []).tag).jsonName) ++ "?" ++ ": " ++ ts ++ ";") :=
  ⟨(generateFieldLine_nullability [] 1 "P").1
      (.mk ["P"] (.starExpr (.ident "int")) [] [] []) rfl rfl rfl,
   (generateFieldLine_nullability [] 1 "Tags").2.1
      (.mk ["Tags"] (.arrayType (.ident "string")) [] [] []) rfl rfl rfl,
   (generateFieldLine_nullability [] 1 "N").2.2.1 _ (by decide) (by decide) (by decide) rfl⟩

/-- Claim C5: a ts ignore tag or a json tag name of exactly "-" removes the
field unconditionally; a "ts ignore //" comment removes the field exactly
when it is the last comment line attached to the field and no ts or ts_type
tag is present; when such a comment coexists with a ts or ts_type tag, the
comment is overridden and the field is emitted exactly as it would be with
no comments at all. -/
theorem generateFieldLine_ignore (g : Registry) (fuel : Nat) (name : String) (fld : GoField) :
    ((parseStructTag fld.tag).ignore = true → generateFieldLine g (fuel+1) name fld = "") ∧
    ((parseStructTag fld.tag).jsonName = "-" → generateFieldLine g (fuel+1) name fld = "") ∧
    (hasTSIgnoreOnField fld = true → (parseStructTag fld.tag).ts = "" →
      (parseStructTag fld.tag).tsType = "" → generateFieldLine g (fuel+1) name fld = "") ∧
    (hasTSIgnoreOnField fld =
      ((fld.doc.flatMap normalizeComment ++ fld.comment.flatMap normalizeComment).getLast? ==
        some "ts ignore //")) ∧
    ((parseStructTag fld.tag).ts ≠ "" ∨ (parseStructTag fld.tag).tsType ≠ "" →
      generateFieldLine g (fuel+1) name fld =
        generateFieldLine g (fuel+1) name (stripFieldComments fld)) := by
  refine ⟨?_, ?_, ?_, ?_, ?_⟩
  · intro h
    simp only [generateFieldLine]
    split
    · rfl
    · simp [h]
  · intro h
    simp only [generateFieldLine]
    split
    · rfl
    · by_cases hi : (parseStructTag fld.tag).ignore <;> simp [h, hi]
  · intro h1 h2 h3
    simp only [generateFieldLine]
    simp [h1, h2, h3]
  · cases hL : (fld.doc.flatMap normalizeComment ++
        fld.comment.flatMap normalizeComment).getLast? <;>
      simp [hasTSIgnoreOnField, hL]
  · intro h
    obtain ⟨ns, t, tg, d, c⟩ := fld
    simp only [GoField.tag] at h
    have h2 : (((parseStructTag tg).ts != "") || ((parseStructTag tg).tsType != "")) = true := by
      rcases h with h | h <;> simp [bne_iff_ne, h]
    simp only [generateFieldLine, stripFieldComments, GoField.tag, GoField.ftype]
    simp [h2]

theorem generateFieldLine_ignore_witness :
    generateFieldLine [] 2 "Secret"
      (.mk ["Secret"] (.ident "string") [("ts", "ignore")] [] []) = "" ∧
    generateFieldLine [] 2 "Hidden"
      (.mk ["Hidden"] (.ident "string") [("json", "-")] [] []) = "" ∧
    generateFieldLine [] 2 "Com"
      (.mk ["Com"] (.ident "string") [] [] ["// ts ignore //"]) = "" ∧
    generateFieldLine [] 2 "Kept"
      (.mk ["Kept"] (.ident "string") [("ts", "nullable")] [] ["// ts ignore //"]) =
      generateFieldLine [] 2 "Kept"
        (stripFieldComments (.mk ["Kept"] (.ident "string")
          [("ts", "nullable")] [] ["// ts ignore //"])) :=
  ⟨(generateFieldLine_ignore [] 1 "Secret"
      (.mk ["Secret"] (.ident "string") [("ts", "ignore")] [] [])).1 (by decide),
   (generateFieldLine_ignore [] 1 "Hidden"
      (.mk ["Hidden"] (.ident "string") [("json", "-")] [] [])).2.1 (by decide),
   (generateFieldLine_ignore [] 1 "Com"
      (.mk ["Com"] (.ident "string") [] [] ["// ts ignore //"])).2.2.1
      (by decide) (by decide) (by decide),
   (generateFieldLine_ignore [] 1 "Kept"
      (.mk ["Kept"] (.ident "string") [("ts", "nullable")] [] ["// ts ignore //"])).2.2.2.2
      (Or.inl (by decide))⟩

/-- Claim C6: an embedded field whose type is a same-package identifier (or
pointer to one) resolving to a struct, or an anonymous inline struct (or a
pointer to one), contributes that struct's field lines flattened inline at
the embedding point with no wrapper property and no collision detection
(concatenation of line lists); an embedded field whose identifier is
unregistered, resolves to a non-struct, or is an external qualified type
contributes no lines. -/
theorem expandEmbeddedField_flatten (g : Registry) (fuel : Nat) (fld : GoField) :
    (∀ n fs, fld.ftype = .ident n → registryFind g n = some (.structType fs) →
      expandEmbeddedField g (fuel+1) fld = collectStructFields g fuel fs) ∧
    (∀ n fs, fld.ftype = .starExpr (.ident n) → registryFind g n = some (.structType fs) →
      expandEmbeddedField g (fuel+1) fld = collectStructFields g fuel fs) ∧
    (∀ fs, fld.ftype = .starExpr (.structType fs) →
      expandEmbeddedField g (fuel+1) fld = collectStructFields g fuel fs) ∧
    (∀ fs, fld.ftype = .structType fs →
      expandEmbeddedField g (fuel+1) fld = collectStructFields g fuel fs) ∧
    (fld.names = [] → ∀ flds1 flds2,
      collectStructFields g (fuel+1) (flds1 ++ fld :: flds2) =
        collectStructFields g (fuel+1) flds1 ++ expandEmbeddedField g fuel fld ++
        collectStructFields g (fuel+1) flds2) ∧
    (∀ n, fld.ftype = .ident n → registryFind g n = none →
      expandEmbeddedField g (fuel+1) fld = []) ∧
    (∀ n t, fld.ftype = .ident n → registryFind g n = some t → isStructExpr t = false →
      expandEmbeddedField g (fuel+1) fld = []) ∧
    (∀ p sel, fld.ftype = .selectorExpr p sel →
      expandEmbeddedField g (fuel+1) fld = []) := by
  obtain ⟨ns, t, tg, d, c⟩ := fld
  refine ⟨?_, ?_, ?_, ?_, ?_, ?_, ?_, ?_⟩
  · intro n fs ht hreg
    simp only [GoField.ftype] at ht
    subst ht
    simp [expandEmbeddedField, GoField.ftype, hreg]
  · intro n fs ht hreg
    simp only [GoField.ftype] at ht
    subst ht
    simp [expandEmbeddedField, GoField.ftype, hreg]
  · intro fs ht
    simp only [GoField.ftype] at ht
    subst ht
    simp [expandEmbeddedField, GoField.ftype]
  · intro fs ht
    simp only [GoField.ftype] at ht
    subst ht
    simp [expandEmbeddedField, GoField.ftype]
  · intro hn flds1 flds2
    simp only [GoField.names] at hn
    simp [collectStructFields, List.flatMap_append, hn, GoField.names]
  · intro n ht hreg
    simp only [GoField.ftype] at ht
    subst ht
    simp [expandEmbeddedField, GoField.ftype, hreg]
  · intro n t2 ht hreg hns
    simp only [GoField.ftype] at ht
    subst ht
    cases t2 <;> simp_all [expandEmbeddedField, GoField.ftype, isStructExpr]
  · intro p sel ht
    simp only [GoField.ftype] at ht
    subst ht
    simp [expandEmbeddedField, GoField.ftype]

theorem expandEmbeddedField_flatten_witness :
    expandEmbeddedField [("Base", .structType [.mk ["ID"] (.ident "int") [] [] []])] 3
      (.mk [] (.ident "Base") [] [] []) =
    collectStructFields [("Base", .structType [.mk ["ID"] (.ident "int") [] [] []])] 2
      [.mk ["ID"] (.ident "int") [] [] []] :=
  (expandEmbeddedField_flatten [("Base", .structType [.mk ["ID"] (.ident "int") [] [] []])] 2
    (.mk [] (.ident "Base") [] [] [])).1 "Base" _ rfl rfl

theorem sortStrings_sorted (ss : List String) :
    List.Sorted (fun a b => a ≤ b) (sortStrings ss) := by
  rcases ss with _ | ⟨a, _ | ⟨b, t⟩⟩
  · simp [sortStrings]
  · simp [sortStrings]
  · unfold sortStrings
    rw [if_neg (by simp)]
    exact List.sorted_mergeSort' _

/-- Claim C7: generation is deterministic (equal loaded package inputs give
byte-identical rendered content), type declarations are emitted in
name-sorted order within the package, and struct field lines follow
declaration order (the rendering of a concatenated field list is the
concatenation of the renderings, in order). -/
theorem generatePackage_deterministic_sorted (fuel : Nat) (p1 p2 : PkgM) (h : p1 = p2) :
    generatePackage fuel p1 = generatePackage fuel p2 ∧
    List.Sorted (fun a b => a ≤ b) (emittedTypeNames p2) ∧
    (∀ g flds1 flds2, collectStructFields g (fuel+1) (flds1 ++ flds2) =
      collectStructFields g (fuel+1) flds1 ++ collectStructFields g (fuel+1) flds2) := by
  refine ⟨by rw [h], ?_, ?_⟩
  · unfold emittedTypeNames
    exact List.Pairwise.filter _ (sortStrings_sorted _)
  · intro g flds1 flds2
    simp [collectStructFields, List.flatMap_append]

theorem generatePackage_deterministic_sorted_witness :
    generatePackage 3 ⟨"pkg", "x/pkg", [⟨"B", .ident "int", []⟩, ⟨"A", .ident "string", []⟩], [], ""⟩ =
    generatePackage 3 ⟨"pkg", "x/pkg", [⟨"B", .ident "int", []⟩, ⟨"A", .ident "string", []⟩], [], ""⟩ ∧
    List.Sorted (fun a b => a ≤ b) (emittedTypeNames
      ⟨"pkg", "x/pkg", [⟨"B", .ident "int", []⟩, ⟨"A", .ident "string", []⟩], [], ""⟩) ∧
    (∀ g flds1 flds2, collectStructFields g 4 (flds1 ++ flds2) =
      collectStructFields g 4 flds1 ++ collectStructFields g 4 flds2) :=
  generatePackage_deterministic_sorted 3
    ⟨"pkg", "x/pkg", [⟨"B", .ident "int", []⟩, ⟨"A", .ident "string", []⟩], [], ""⟩
    ⟨"pkg", "x/pkg", [⟨"B", .ident "int", []⟩, ⟨"A", .ident "string", []⟩], [], ""⟩ rfl

/-- Claim C10: a successful load always returns exactly one package,
whichever of the three loader paths is taken. -/
theorem loadFromInput_single (input : String) (fileAbsOk fileOk absOk isDirOk : Bool)
    (parsed : Except Unit (List String)) (absPath : String) (loadOk : Bool)
    (printErrorCount : Nat) (loadedPkgs : List (String × String)) (parseFilesOk : Bool)
    (l : List PkgDataM)
    (h : loadFromInputM input fileAbsOk fileOk absOk isDirOk parsed absPath loadOk
      printErrorCount loadedPkgs parseFilesOk = Except.ok l) :
    l.length = 1 := by
  unfold loadFromInputM loadFromFileM loadFromDirM loadFromImportOrTypeM at h
  iterate 10 (all_goals try split at h)
  all_goals try simp_all
  all_goals (rw [← h]; rfl)

theorem loadFromInput_single_witness :
    ([(⟨"main", "/abs", ""⟩ : PkgDataM)]).length = 1 :=
  loadFromInput_single "./x" true true true true (.ok ["main"]) "/abs" true 0 [] true
    [⟨"main", "/abs", ""⟩] rfl

theorem FS_removeAll_files_sub (fs : FS) (p : String) (pc : String × String)
    (h : pc ∈ (fs.removeAll p).files) : pc ∈ fs.files :=
  (List.mem_filter.mp h).1

theorem FS_removeAll_hasDir (fs : FS) (p : String) : (fs.removeAll p).hasDir p = false := by
  simp only [FS.removeAll, FS.hasDir, List.any_eq_false, List.mem_filter]
  intro d hd
  simp only [Bool.not_eq_true'] at hd
  intro hdp
  rw [hdp] at hd
  simp at hd

theorem FS_removeAll_under (fs : FS) (p : String) (pc : String × String)
    (h : pc ∈ (fs.removeAll p).files) : underPath p pc.1 = false := by
  have h2 := (List.mem_filter.mp h).2
  simp only [Bool.not_eq_true'] at h2
  exact (Bool.or_eq_false_iff.mp h2).2

theorem prepareOutput_files_sub (fs : FS) (output : String) (fs1 : FS) (cd : Bool)
    (h : prepareOutput fs output = Except.ok (fs1, cd)) :
    ∀ pc, pc ∈ fs1.files → pc ∈ fs.files := by
  unfold prepareOutput at h
  iterate 6 (all_goals try split at h)
  any_goals exact Except.noConfusion h
  all_goals (injection h with hpair; injection hpair with hfs hcd; subst hfs)
  all_goals intro pc hp
  all_goals first
    | exact hp
    | exact FS_removeAll_files_sub _ _ _ hp

theorem prepareOutput_dir_mode (fs : FS) (output : String)
    (hsf : isSingleFileOut output = false) (hfile : fs.hasFileAt output = false) :
    ∃ fs1, prepareOutput fs output = Except.ok (fs1, true) := by
  by_cases hd : fs.hasDir output <;> by_cases hne : fs.dirNotEmpty output <;>
    simp [prepareOutput, checkDirStatus, hsf, hfile, hd, hne]

/-- Claim C8: for every run in which loading fails, Generate returns an
error and writes no output file (every file present afterwards was present
before); and in directory output mode, on every reachable preparation, any
failure after the output directory was set up removes that directory and
leaves no file beneath it (rollback). -/
theorem generate_rollback (fuel : Nat) (writeOk : String → Bool) (input output : String)
    (loadRes : Except String (List PkgM)) (fs : FS) :
    (∀ msg, loadRes = Except.error msg →
      (∃ m, (generateModel fuel writeOk input output loadRes fs).2 = Except.error m) ∧
      (∀ pc, pc ∈ (generateModel fuel writeOk input output loadRes fs).1.files →
        pc ∈ fs.files)) ∧
    (isSingleFileOut output = false → input ≠ "" → output ≠ "" →
      fs.hasFileAt output = false →
      ∀ m, (generateModel fuel writeOk input output loadRes fs).2 = Except.error m →
        (generateModel fuel writeOk input output loadRes fs).1.hasDir output = false ∧
        ∀ pc, pc ∈ (generateModel fuel writeOk input output loadRes fs).1.files →
          underPath output pc.1 = false) := by
  constructor
  · intro msg hmsg
    subst hmsg
    unfold generateModel
    by_cases h1 : input = ""
    · rw [if_pos h1]
      exact ⟨⟨_, rfl⟩, fun pc hp => hp⟩
    rw [if_neg h1]
    by_cases h2 : output = ""
    · rw [if_pos h2]
      exact ⟨⟨_, rfl⟩, fun pc hp => hp⟩
    rw [if_neg h2]
    rcases hprep : prepareOutput fs output with e | fp
    · simp only [hprep]
      exact ⟨⟨_, rfl⟩, fun pc hp => hp⟩
    · obtain ⟨fs1, cd⟩ := fp
      simp only [hprep]
      by_cases hc : (!isSingleFileOut output && cd) = true
      · rw [if_pos hc]
        exact ⟨⟨_, rfl⟩, fun pc hp =>
          prepareOutput_files_sub fs output fs1 cd hprep pc
            (FS_removeAll_files_sub _ _ _ hp)⟩
      · rw [if_neg hc]
        exact ⟨⟨_, rfl⟩, fun pc hp => prepareOutput_files_sub fs output fs1 cd hprep pc hp⟩
  · intro hsf hin hout hfile m hres
    obtain ⟨fs1, hprep⟩ := prepareOutput_dir_mode fs output hsf hfile
    unfold generateModel at hres ⊢
    rw [if_neg hin, if_neg hout] at hres ⊢
    simp only [hprep] at hres ⊢
    rcases loadRes with e | pkgs
    · simp only [hsf, Bool.not_false, Bool.and_true, if_true]
      exact ⟨FS_removeAll_hasDir _ _, fun pc hp => FS_removeAll_under _ _ _ hp⟩
    · by_cases hemp : pkgs.isEmpty = true
      · simp only [hemp, hsf, Bool.not_false, Bool.and_true, if_true]
        exact ⟨FS_removeAll_hasDir _ _, fun pc hp => FS_removeAll_under _ _ _ hp⟩
      · simp only [hemp, hsf, Bool.false_eq_true, if_false] at hres ⊢
        rcases hw : writePackagesToDir writeOk output fs1
            (pkgs.map (fun p => PackOut.mk p.pkgName (generatePackage fuel p))) with ⟨fs2, wr⟩
        rw [hw] at hres ⊢
        cases wr with
        | ok u => simp at hres
        | error e =>
          exact ⟨FS_removeAll_hasDir _ _, fun pc hp => FS_removeAll_under _ _ _ hp⟩

theorem generate_rollback_witness :
    ((∃ m, (generateModel 1 (fun _ => true) "./in" "./out"
        (Except.error "failed to parse directory")
        ⟨["./out"], [("./out/old.d.ts", "x")]⟩).2 = Except.error m) ∧
     (∀ pc, pc ∈ (generateModel 1 (fun _ => true) "./in" "./out"
        (Except.error "failed to parse directory")
        ⟨["./out"], [("./out/old.d.ts", "x")]⟩).1.files →
       pc ∈ (FS.mk ["./out"] [("./out/old.d.ts", "x")]).files)) ∧
    ((generateModel 1 (fun _ => true) "./in" "./out"
        (Except.error "failed to parse directory")
        ⟨["./out"], [("./out/old.d.ts", "x")]⟩).1.hasDir "./out" = false ∧
     ∀ pc, pc ∈ (generateModel 1 (fun _ => true) "./in" "./out"
        (Except.error "failed to parse directory")
        ⟨["./out"], [("./out/old.d.ts", "x")]⟩).1.files →
       underPath "./out" pc.1 = false) :=
  ⟨(generate_rollback 1 (fun _ => true) "./in" "./out"
      (Except.error "failed to parse directory")
      ⟨["./out"], [("./out/old.d.ts", "x")]⟩).1 "failed to parse directory" rfl,
   (generate_rollback 1 (fun _ => true) "./in" "./out"
      (Except.error "failed to parse directory")
      ⟨["./out"], [("./out/old.d.ts", "x")]⟩).2 (by decide) (by decide) (by decide) (by decide)
      "failed to parse directory" rfl⟩
